import Mathlib

/-
Verification of the interactive shell extension in
src/src/WithSecure/common/cmd_ext.py (class Cmd, extending Python cmd.Cmd).

Lines are modelled as List Char.  Python strings operations used by the
source (str.replace, str.rsplit, str.strip, shlex.split) are embedded as
executable Lean functions with the same semantics.  Exceptions are
modelled with Except; stateful methods thread an explicit ShellState and
on a raise return the state at the moment the exception escapes.
The code runs under Python 3 (it uses ModuleNotFoundError and the print
function), which matters for the semantics of `e.message` in cmdloop.
-/

/-- Characters stripped by Python str.strip() with no argument
(ASCII whitespace; Char.ofNat 11 and 12 are vertical tab and form feed). -/
def pyIsSpace (c : Char) : Bool :=
  c = ' ' || c = '\t' || c = '\n' || c = '\r' || c = Char.ofNat 11 || c = Char.ofNat 12

/-- Python str.strip(): drop whitespace from both ends. -/
def pyStrip (l : List Char) : List Char :=
  ((l.dropWhile pyIsSpace).reverse.dropWhile pyIsSpace).reverse

/-- The whitespace set of the shlex lexer (shlex.whitespace). -/
def shlexWSChar (c : Char) : Bool :=
  c = ' ' || c = '\t' || c = '\r' || c = '\n'

/-- cmd.Cmd.identchars: ASCII letters, digits and underscore. -/
def identChar (c : Char) : Bool :=
  c.isAlpha || c.isDigit || c = '_'

/-- Python `haystack.find(pat) >= 0`: pat occurs as a contiguous substring. -/
def containsSub (pat : List Char) : List Char → Bool
  | [] => pat.isEmpty
  | c :: rest => pat.isPrefixOf (c :: rest) || containsSub pat rest

/-- The test on line 372 of cmd_ext.py: the line mentions one of the four
history-bang tokens. -/
def hasBang (l : List Char) : Bool :=
  containsSub "!!".toList l || containsSub "!$".toList l ||
  containsSub "!^".toList l || containsSub "!*".toList l

/-- Python str.replace(pat, rep): replace every non-overlapping occurrence
of pat, scanning left to right; text coming from rep is not rescanned
within the same call.  All patterns used by the source are non-empty
(they start with a dollar sign or a bang), so the empty-pattern guard is
never exercised. -/
def replaceAllAux (pat rep : List Char) : Nat → List Char → List Char
  | 0, l => l
  | fuel + 1, l =>
    match l with
    | [] => []
    | c :: rest =>
      if pat.isPrefixOf (c :: rest) && !pat.isEmpty then
        rep ++ replaceAllAux pat rep fuel (rest.drop (pat.length - 1))
      else
        c :: replaceAllAux pat rep fuel rest

/-- The fuel (one unit per scanning step, at least one character consumed
per step) is initialized to the length of the subject, so it never runs
out before the subject does; it only serves structural termination. -/
def replaceAll (pat rep : List Char) (l : List Char) : List Char :=
  replaceAllAux pat rep l.length l

/-- The variable loop of Cmd.__do_substitutions (lines 368-369):
for each (name, value) of the table, in table order, replace every
occurrence of $name by value. -/
def varPass (vars : List (List Char × List Char)) (line : List Char) : List Char :=
  vars.foldl (fun l nv => replaceAll ('$' :: nv.1) nv.2 l) line

/-- Python exceptions raised (or caught) by the embedded code. -/
inductive PyExc
  | valueError (msg : List Char)
  | indexError
  | attributeError (msg : List Char)
  | ioError (strerror : List Char)
  | exception (msg : List Char)
deriving DecidableEq, Repr

/-- Rendering used by Cmd.handleException ("Exception occured: %s"). -/
def excStr : PyExc → List Char
  | .valueError m => m
  | .indexError => "list index out of range".toList
  | .attributeError m => m
  | .ioError m => m
  | .exception m => m

/-- Lexer states of shlex (posix mode, whitespace_split):
between tokens, inside a word, inside single or double quotes, or after a
backslash met outside quotes (escA) or inside double quotes (escDq). -/
inductive ShlexState
  | ws | word | squote | dquote | escA | escDq
deriving DecidableEq, Repr

/-- One pass of the shlex.shlex state machine (posix=True,
whitespace_split=True, no comment or punctuation chars), accumulating the
current token in reverse.  quoted records that the current token met a
quote, so that an empty quoted token is still emitted. -/
def shlexRun : List Char → ShlexState → List Char → Bool → List (List Char) →
    Except PyExc (List (List Char))
  | [], st, acc, quoted, toks =>
    match st with
    | .squote => .error (.valueError "No closing quotation".toList)
    | .dquote => .error (.valueError "No closing quotation".toList)
    | .escA => .error (.valueError "No escaped character".toList)
    | .escDq => .error (.valueError "No escaped character".toList)
    | _ => if acc.isEmpty && !quoted then .ok toks else .ok (toks ++ [acc.reverse])
  | c :: rest, st, acc, quoted, toks =>
    match st with
    | .ws =>
      if shlexWSChar c then shlexRun rest .ws acc quoted toks
      else if c = '\\' then shlexRun rest .escA acc quoted toks
      else if c = '\'' then shlexRun rest .squote acc true toks
      else if c = '"' then shlexRun rest .dquote acc true toks
      else shlexRun rest .word (c :: acc) quoted toks
    | .word =>
      if shlexWSChar c then shlexRun rest .ws [] false (toks ++ [acc.reverse])
      else if c = '\\' then shlexRun rest .escA acc quoted toks
      else if c = '\'' then shlexRun rest .squote acc true toks
      else if c = '"' then shlexRun rest .dquote acc true toks
      else shlexRun rest .word (c :: acc) quoted toks
    | .squote =>
      if c = '\'' then shlexRun rest .word acc quoted toks
      else shlexRun rest .squote (c :: acc) quoted toks
    | .dquote =>
      if c = '"' then shlexRun rest .word acc quoted toks
      else if c = '\\' then shlexRun rest .escDq acc quoted toks
      else shlexRun rest .dquote (c :: acc) quoted toks
    | .escA => shlexRun rest .word (c :: acc) quoted toks
    | .escDq =>
      if c = '\\' || c = '"' then shlexRun rest .dquote (c :: acc) quoted toks
      else shlexRun rest .dquote (c :: '\\' :: acc) quoted toks

/-- shlex.split(line): tokenize, raising ValueError on an unbalanced quote
or a trailing escape character. -/
def shlexSplit (l : List Char) : Except PyExc (List (List Char)) :=
  shlexRun l .ws [] false []

/-- Python list indexing argv[-1]: last element, IndexError on an empty list. -/
def pyLast : List (List Char) → Except PyExc (List Char)
  | [] => .error .indexError
  | [a] => .ok a
  | _ :: b :: rest => pyLast (b :: rest)

/-- Python list indexing argv[1]: IndexError when fewer than two elements. -/
def pyIdx1 : List (List Char) → Except PyExc (List Char)
  | _ :: x :: _ => .ok x
  | _ => .error .indexError

/-- Python " ".join(tokens). -/
def joinTokens (toks : List (List Char)) : List Char :=
  List.intercalate [' '] toks

/-- The notice written by Cmd.__do_last_command_substitutions when there is
no previous command. -/
def msgNoPrev : List Char := "no previous command\n".toList

/-- The notice written by Cmd.__redirect_output when the destination is blank. -/
def msgNoTarget : List Char := "No redirection target specified.\n".toList

/-- Cmd.__do_last_command_substitutions (lines 377-390).  Returns the
rewritten line together with the list of lines written to stderr, or the
Python exception that escapes.  The four replacements run in source
order: !!, then !$ (needs argv[-1]), then !^ (needs argv[1]), then !*;
the argv indexings are unconditional, exactly as in the source. -/
def do_last_command_substitutions (lastcmd line : List Char) :
    Except PyExc (List Char × List (List Char)) :=
  if lastcmd ≠ [] then
    match shlexSplit lastcmd with
    | .error e => .error e
    | .ok argv =>
      let l1 := replaceAll "!!".toList lastcmd line
      match pyLast argv with
      | .error e => .error e
      | .ok lastTok =>
        let l2 := replaceAll "!$".toList lastTok l1
        match pyIdx1 argv with
        | .error e => .error e
        | .ok firstArg =>
          let l3 := replaceAll "!^".toList firstArg l2
          let l4 := replaceAll "!*".toList (joinTokens (argv.drop 1)) l3
          .ok (l4, [])
  else
    .ok ([], [msgNoPrev])

/-- Modelled from the spec: output streams carry object identity.  A base
stream stands for a concrete sink object; tee stands for a
WithSecure.common.system.Tee object (that module is not under src/),
which the spec describes as a duplicating writer wrapping the previous
output stream, built from the destination file name and an open mode. -/
inductive OutStream
  | base (n : Nat)
  | tee (console : OutStream) (destination : List Char) (mode : Char)
deriving DecidableEq, Repr

/-- The session state of the Cmd object: the output stream object bound to
self.stdout, the lines written to the error stream, the saved stream of
an active redirection (self.__output_redirected), the variable table, the
alias table, and self.lastcmd. -/
structure ShellState where
  stdout : OutStream
  stderr : List (List Char)
  outputRedirected : Option OutStream
  varTable : List (List Char × List Char)
  aliases : List (List Char × List Char)
  lastcmd : List Char
deriving DecidableEq, Repr

/-- A domain command handler (a do_* method).  It may read the session
state; it returns the updated variable table and its return value (the
stop signal), or raises.  In the source the handlers mutate session data
such as the variable table (do_set, do_unset) and do not rebind the
stream fields, which belong to the command loop. -/
def Handler : Type :=
  ShellState → List Char → Except PyExc (List (List Char × List Char) × Option Bool)

/-- Modelled from the spec: the external world of the shell.
handlers is the dispatcher (command name to do_* method, None when the
attribute is missing); hasShell records hasattr(self, "do_shell");
openErr gives, for a destination file and open mode, the strerror of the
IOError raised when the Tee (WithSecure.common.system, not under src/)
opens the file, or none when the open succeeds. -/
structure Env where
  hasShell : Bool
  handlers : List Char → Option Handler
  openErr : List Char → Char → Option (List Char)

/-- Cmd.__do_substitutions (lines 358-375): empty line returned at once;
otherwise the variable pass, then the history-bang pass when one of the
four tokens occurs in the variable-substituted line. -/
def do_substitutions (s : ShellState) (line : List Char) :
    Except (PyExc × ShellState) (List Char × ShellState) :=
  if line = [] then .ok ([], s)
  else
    if hasBang (varPass s.varTable line) then
      match do_last_command_substitutions s.lastcmd (varPass s.varTable line) with
      | .error e => .error (e, s)
      | .ok (l2, errs) => .ok (l2, { s with stderr := s.stderr ++ errs })
    else .ok (varPass s.varTable line, s)

/-- Python line.rsplit(">", 1) unpacked into two parts: the text before
the last occurrence of the greater-than sign and the text after it; none
when the character does not occur (the Python unpacking would then raise
ValueError). -/
def rsplitGt : List Char → Option (List Char × List Char)
  | [] => none
  | c :: rest =>
    match rsplitGt rest with
    | some (b, a) => some (c :: b, a)
    | none => if c = '>' then some ([], rest) else none

/-- Cmd.__build_tee (lines 345-356): when the destination begins with a
further greater-than sign, drop it and open for append, otherwise open
for overwrite; the file name is the destination stripped of whitespace.
Opening the file may raise IOError (per Env.openErr); indexing an empty
destination would raise IndexError (the caller guards against it). -/
def build_tee (env : Env) (console : OutStream) (destination : List Char) :
    Except PyExc OutStream :=
  match destination with
  | [] => .error .indexError
  | c :: rest =>
    let dm := if c = '>' then (rest, 'a') else (c :: rest, 'w')
    let fname := pyStrip dm.1
    match env.openErr fname dm.2 with
    | some strerror => .error (.ioError strerror)
    | none => .ok (.tee console fname dm.2)

/-- The line written by Cmd.__redirect_output when opening the destination
raises IOError (the trailing ".e" is a typo in the source, kept as is). -/
def redirectErrMsg (strerror : List Char) : List Char :=
  "Error processing your redirection target: ".toList ++ strerror ++ ".e\n".toList

/-- Cmd.__redirect_output (lines 392-411): split at the last greater-than
sign; with a blank destination report and return the empty line; else
save self.stdout into self.__output_redirected (before the tee is built,
so it stays saved when the open fails) and install the tee; an IOError
from the open is reported and the empty line returned. -/
def redirect_output (env : Env) (s : ShellState) (line : List Char) :
    Except (PyExc × ShellState) (List Char × ShellState) :=
  match rsplitGt line with
  | none => .error (.valueError "not enough values to unpack".toList, s)
  | some (before, destination) =>
    if destination ≠ [] then
      match build_tee env s.stdout destination with
      | .ok t =>
        .ok (before, { s with outputRedirected := some s.stdout, stdout := t })
      | .error (.ioError strerror) =>
        .ok ([], { s with outputRedirected := some s.stdout, stderr := s.stderr ++ [redirectErrMsg strerror] })
      | .error e => .error (e, { s with outputRedirected := some s.stdout })
    else
      .ok ([], { s with stderr := s.stderr ++ [msgNoTarget] })

/-- Cmd.precmd (lines 261-275): substitutions, then tokenize the line and
set up redirection when ">" or ">>" appears as a token.  The ValueError
of an unbalanced quote escapes from shlex.split. -/
def precmd (env : Env) (s : ShellState) (line : List Char) :
    Except (PyExc × ShellState) (List Char × ShellState) :=
  match do_substitutions s line with
  | .error es => .error es
  | .ok (l1, s1) =>
    match shlexSplit l1 with
    | .error e => .error (e, s1)
    | .ok parsed =>
      if parsed.contains ">".toList || parsed.contains ">>".toList then
        redirect_output env s1 l1
      else .ok (l1, s1)

/-- Result of cmd.Cmd.parseline: blank line, a line with no command part
(a bang line without a do_shell method), or command name, argument and
the possibly rewritten full line. -/
inductive ParsedLine
  | empty
  | noCommand (line : List Char)
  | command (name arg line : List Char)
deriving DecidableEq, Repr

/-- The identchars scan at the end of cmd.Cmd.parseline. -/
def scanCommand (l : List Char) : ParsedLine :=
  .command (l.takeWhile identChar) (pyStrip (l.dropWhile identChar)) l

/-- cmd.Cmd.parseline (Python 3 standard library), as inherited by the
source class: strip, rewrite a leading question mark to "help", a leading
bang to "shell" when do_shell exists (else no command), then split the
command name off at the first non-identifier character. -/
def parseline (hasShell : Bool) (line : List Char) : ParsedLine :=
  match pyStrip line with
  | [] => .empty
  | c :: rest =>
    if c = '?' then scanCommand ("help ".toList ++ rest)
    else if c = '!' then
      if hasShell then scanCommand ("shell ".toList ++ rest)
      else .noCommand (c :: rest)
    else scanCommand (c :: rest)

/-- Invoke a handler, threading its variable-table update into the state. -/
def runHandler (h : Handler) (s : ShellState) (arg : List Char) :
    Except (PyExc × ShellState) (Option Bool × ShellState) :=
  match h s arg with
  | .error e => .error (e, s)
  | .ok (vars, stop) => .ok (stop, { s with varTable := vars })

/-- Cmd.default (lines 164-175): shlex-split the line, dispatch through the
alias table, else fall back to cmd.Cmd.default, which writes an unknown
syntax notice to self.stdout (stream content is not tracked) and returns
None.  The source discards the return value of an aliased handler, so the
dispatch returns None in that branch; a missing do_* attribute for the
alias target would raise AttributeError from getattr. -/
def defaultCmd (env : Env) (s : ShellState) (line : List Char) :
    Except (PyExc × ShellState) (Option Bool × ShellState) :=
  match shlexSplit line with
  | .error e => .error (e, s)
  | .ok [] => .error (.indexError, s)
  | .ok (a0 :: rest) =>
    match List.lookup a0 s.aliases with
    | some target =>
      match env.handlers target with
      | some h =>
        match h s (joinTokens rest) with
        | .error e => .error (e, s)
        | .ok (vars, _) => .ok (none, { s with varTable := vars })
      | none => .error (.attributeError "getattr failed".toList, s)
    | none => .ok (none, s)

/-- cmd.Cmd.onecmd as it runs for the source class: parseline, the
emptyline override (a no-op), recording self.lastcmd (cleared for EOF),
then handler lookup with Cmd.default as fallback. -/
def onecmd (env : Env) (s : ShellState) (line : List Char) :
    Except (PyExc × ShellState) (Option Bool × ShellState) :=
  match parseline env.hasShell line with
  | .empty => .ok (none, s)
  | .noCommand l => defaultCmd env s l
  | .command name arg l =>
    if name = [] then
      defaultCmd env { s with lastcmd := if l = "EOF".toList then [] else l } l
    else
      match env.handlers name with
      | some h =>
        runHandler h { s with lastcmd := if l = "EOF".toList then [] else l } arg
      | none =>
        defaultCmd env { s with lastcmd := if l = "EOF".toList then [] else l } l

/-- Cmd.postcmd (lines 246-259): when a redirection is active, rebind
self.stdout to the saved stream and clear self.__output_redirected. -/
def postcmd (s : ShellState) (stop : Option Bool) : Option Bool × ShellState :=
  match s.outputRedirected with
  | some orig => (stop, { s with stdout := orig, outputRedirected := none })
  | none => (stop, s)

/-- The body of one iteration of Cmd.cmdloop (lines 87-90): precmd, onecmd,
postcmd; an exception from any of the three skips the rest. -/
def cycleBody (env : Env) (s : ShellState) (line : List Char) :
    Except (PyExc × ShellState) (Option Bool × ShellState) :=
  match precmd env s line with
  | .error es => .error es
  | .ok (l1, s1) =>
    match onecmd env s1 l1 with
    | .error es => .error es
    | .ok (stop, s2) => .ok (postcmd s2 stop)

/-- Outcome of one loop iteration: either the loop goes on (with the stop
signal of the dispatched command), or an exception ended the whole loop
(the outer except Exception handler of cmdloop reports it and falls out
of the while loop). -/
inductive CycleResult
  | cont (s : ShellState) (stop : Option Bool)
  | fatal (s : ShellState) (e : PyExc)
deriving DecidableEq, Repr

/-- Message text of the AttributeError raised in Python 3 by evaluating
e.message on a ValueError instance (Python renders the class and
attribute names inside quotes, omitted here). -/
def pyNoMessageAttr : List Char :=
  "ValueError object has no attribute message".toList

/-- One iteration of Cmd.cmdloop (lines 87-104) around the body.  A
ValueError reaches `except ValueError as e`, whose first statement reads
e.message; under Python 3 a ValueError has no attribute message, so this
raises AttributeError, which escapes the while loop into the outer
`except Exception` handler: the quotation help text is never written,
handleException reports the exception to stderr, and the loop ends.  Any
other exception reaches the outer handler directly. -/
def cycle (env : Env) (s : ShellState) (line : List Char) : CycleResult :=
  match cycleBody env s line with
  | .ok (stop, s1) => .cont s1 stop
  | .error (e, s1) =>
    match e with
    | .valueError _ =>
      .fatal { s1 with stderr := s1.stderr ++
          ["Exception occured: ".toList ++ excStr (.attributeError pyNoMessageAttr) ++
            "\n".toList] }
        (.attributeError pyNoMessageAttr)
    | e =>
      .fatal { s1 with stderr := s1.stderr ++
        ["Exception occured: ".toList ++ excStr e ++ "\n".toList] } e

/-- State touched by push_completer and pop_completer: the completer
installed on the readline module (completers carry object identity as
numbers), the in-memory readline history, the two stacks of the Cmd
object, and the history files on disk (an association list; a later
binding shadows an earlier one). -/
structure CompleterCtx where
  rlCompleter : Nat
  rlHistory : List (List Char)
  completerStack : List Nat
  historyStack : List (Option (List Char))
  fs : List (List Char × List (List Char))
deriving DecidableEq, Repr

/-- readline.write_history_file: create or overwrite the file. -/
def fsWrite (fs : List (List Char × List (List Char))) (path : List Char)
    (content : List (List Char)) : List (List Char × List (List Char)) :=
  (path, content) :: fs

/-- os.path.exists combined with readline.read_history_file. -/
def fsRead (fs : List (List Char × List (List Char))) (path : List Char) :
    Option (List (List Char)) :=
  List.lookup path fs

/-- Cmd.push_completer (lines 308-330): save the installed completer,
install the new one, flush the in-memory history to the file of the
current top of the history stack (when that entry is a non-empty path),
push the new history file, clear the in-memory history and load the new
file when it exists on disk.  With no readline the method is a no-op. -/
def push_completer (hasRL : Bool) (st : CompleterCtx) (completer : Nat)
    (historyFile : Option (List Char)) : CompleterCtx :=
  if hasRL then
    let st1 := { st with completerStack := st.completerStack ++ [st.rlCompleter],
                         rlCompleter := completer }
    let st2 :=
      match st1.historyStack.getLast? with
      | some (some f) =>
        if f ≠ [] then { st1 with fs := fsWrite st1.fs f st1.rlHistory } else st1
      | _ => st1
    let st3 := { st2 with historyStack := st2.historyStack ++ [historyFile],
                          rlHistory := [] }
    match historyFile with
    | some f =>
      match fsRead st3.fs f with
      | some content => { st3 with rlHistory := content }
      | none => st3
    | none => st3
  else st

/-- Cmd.pop_completer (lines 332-343): flush the in-memory history to the
top history file (when not None), pop it, clear the in-memory history,
reload the file of the remaining top (when that entry is a non-empty
path; a missing file makes read_history_file raise IOError), and restore
the saved completer.  Indexing the empty history stack raises IndexError.
With no readline the method is a no-op. -/
def pop_completer (hasRL : Bool) (st : CompleterCtx) : Except PyExc CompleterCtx :=
  if hasRL then
    match st.historyStack.getLast? with
    | none => .error .indexError
    | some top =>
      let st1 :=
        match top with
        | some f => { st with fs := fsWrite st.fs f st.rlHistory,
                              historyStack := st.historyStack.dropLast }
        | none => { st with historyStack := st.historyStack.dropLast }
      let st2 := { st1 with rlHistory := [] }
      match st2.historyStack.getLast? with
      | some (some f) =>
        if f ≠ [] then
          match fsRead st2.fs f with
          | some content =>
            match st2.completerStack.getLast? with
            | some c => .ok { st2 with rlHistory := content,
                                       completerStack := st2.completerStack.dropLast,
                                       rlCompleter := c }
            | none => .error .indexError
          | none => .error (.ioError "No such file or directory".toList)
        else
          match st2.completerStack.getLast? with
          | some c => .ok { st2 with completerStack := st2.completerStack.dropLast,
                                     rlCompleter := c }
          | none => .error .indexError
      | _ =>
        match st2.completerStack.getLast? with
        | some c => .ok { st2 with completerStack := st2.completerStack.dropLast,
                                   rlCompleter := c }
        | none => .error .indexError
  else .ok st

/-- A sequence of push_completer calls, first element first. -/
def pushList (hasRL : Bool) (st : CompleterCtx) :
    List (Nat × Option (List Char)) → CompleterCtx
  | [] => st
  | a :: as' => pushList hasRL (push_completer hasRL st a.1 a.2) as'

/-- A sequence of n pop_completer calls; a raise aborts the sequence. -/
def popN (hasRL : Bool) : Nat → CompleterCtx → Except PyExc CompleterCtx
  | 0, st => .ok st
  | n + 1, st =>
    match pop_completer hasRL st with
    | .error e => .error e
    | .ok st1 => popN hasRL n st1

/-- A sample session state: console output stream, nothing written, no
redirection, empty tables. -/
def s0 : ShellState :=
  { stdout := .base 0, stderr := [], outputRedirected := none,
    varTable := [], aliases := [], lastcmd := [] }

/-- A sample environment: no do_shell, no handlers, every file open succeeds. -/
def sampleEnv : Env :=
  { hasShell := false, handlers := fun _ => none, openErr := fun _ _ => none }

/-- An environment whose handler for the command foo raises a (non
ValueError) exception, and where every file open succeeds. -/
def envBoom : Env :=
  { hasShell := false,
    handlers := fun c =>
      if c = "foo".toList then
        some (fun _ _ => .error (.exception "boom".toList))
      else none,
    openErr := fun _ _ => none }

/-! Helper lemmas about the string primitives. -/

theorem replaceAllAux_self (pat : List Char) :
    ∀ (fuel : Nat) (l : List Char), replaceAllAux pat pat fuel l = l := by
  intro fuel
  induction fuel with
  | zero => intro l; rfl
  | succ n ih =>
    intro l
    match l with
    | [] => rfl
    | c :: rest =>
      rw [replaceAllAux]
      by_cases h : (pat.isPrefixOf (c :: rest) && !pat.isEmpty) = true
      · rw [if_pos h]
        have hpre : pat <+: (c :: rest) :=
          List.isPrefixOf_iff_prefix.mp ((Bool.and_eq_true _ _).mp h).1
        have hp : pat ≠ [] := by
          intro hnil
          have := ((Bool.and_eq_true _ _).mp h).2
          rw [hnil] at this
          simp at this
        obtain ⟨t, ht⟩ := hpre
        have hplen : 1 ≤ pat.length := by
          cases pat
          · exact absurd rfl hp
          · simp
        have h1 : (c :: rest).drop pat.length = t := by
          rw [← ht]
          exact List.drop_left pat t
        have hdrop : rest.drop (pat.length - 1) = t := by
          have h2 : pat.length = (pat.length - 1) + 1 := by omega
          rw [h2] at h1
          simpa using h1
        rw [hdrop, ih t, ht]
      · rw [if_neg h, ih rest]

/-- Python str.replace never rescans replaced text within one call: when a
value reintroduces the very pattern being replaced, the pass terminates
and leaves it intact. -/
theorem replaceAll_self (pat : List Char) (l : List Char) :
    replaceAll pat pat l = l :=
  replaceAllAux_self pat l.length l

theorem replaceAllAux_no_dollar (nm rep : List Char) :
    ∀ (fuel : Nat) (l : List Char), '$' ∉ l →
      replaceAllAux ('$' :: nm) rep fuel l = l := by
  intro fuel
  induction fuel with
  | zero => intro l _; rfl
  | succ n ih =>
    intro l hmem
    match l with
    | [] => rfl
    | c :: rest =>
      have hc : ¬ ('$' = c) := by
        intro h
        exact hmem (by simp [← h])
      rw [replaceAllAux]
      have hpre : (('$' :: nm).isPrefixOf (c :: rest)) = false := by
        simp only [List.isPrefixOf, Bool.and_eq_false_iff]
        left
        simpa using hc
      rw [hpre]
      simp only [Bool.false_and, Bool.false_eq_true, if_false]
      rw [ih rest (fun hm => hmem (List.mem_cons_of_mem c hm))]

theorem replaceAll_no_dollar (nm rep : List Char) (l : List Char)
    (h : '$' ∉ l) : replaceAll ('$' :: nm) rep l = l :=
  replaceAllAux_no_dollar nm rep l.length l h

/-- A line that mentions no dollar sign passes through the variable loop
unchanged, for every variable table. -/
theorem varPass_no_dollar (vs : List (List Char × List Char)) (l : List Char)
    (h : '$' ∉ l) : varPass vs l = l := by
  induction vs with
  | nil => rfl
  | cons v vs ih =>
    unfold varPass at ih ⊢
    simp only [List.foldl_cons]
    rw [replaceAll_no_dollar v.1 v.2 l h]
    exact ih

theorem varPass_nil_line (vs : List (List Char × List Char)) :
    varPass vs [] = [] :=
  varPass_no_dollar vs [] (by simp)

/-- Claim C1.  The redirection manager does split at the last occurrence of
the greater-than sign and does test whether the split-off destination
begins with a further one; but with rsplit the destination can never
contain that character, so the append branch of __build_tee is dead code.
Evaluated at the claim's own example: input "foo bar >> out.txt" installs
a tee on out.txt opened in OVERWRITE mode 'w' (not append 'a'), and the
line handed on for dispatch is "foo bar >" (not "foo bar"). -/
theorem c1_redirect_eval :
    precmd sampleEnv s0 "foo bar >> out.txt".toList =
      .ok ("foo bar >".toList,
        { s0 with stdout := .tee (.base 0) "out.txt".toList 'w',
                  outputRedirected := some (.base 0) })
    ∧ ('w' : Char) ≠ 'a'
    ∧ "foo bar >".toList ≠ "foo bar".toList :=
  ⟨rfl, by decide, by decide⟩

/-- When rsplit finds no split point, the line holds no greater-than sign. -/
theorem rsplitGt_none_no_gt : ∀ l : List Char, rsplitGt l = none → '>' ∉ l := by
  intro l
  induction l with
  | nil => intro _ h; simp at h
  | cons c rest ih =>
    intro hnone
    rw [rsplitGt] at hnone
    cases hr : rsplitGt rest with
    | some p => rw [hr] at hnone; cases p; simp at hnone
    | none =>
      rw [hr] at hnone
      by_cases hc : c = '>'
      · rw [if_pos hc] at hnone; simp at hnone
      · intro hmem
        rcases List.mem_cons.mp hmem with h1 | h2
        · exact hc h1.symm
        · exact ih hr h2

/-- The destination produced by rsplit at the last greater-than sign never
contains a greater-than sign, so the append branch of __build_tee can
never be taken. -/
theorem rsplitGt_snd_no_gt :
    ∀ (l b a : List Char), rsplitGt l = some (b, a) → '>' ∉ a := by
  intro l
  induction l with
  | nil => intro b a h; simp [rsplitGt] at h
  | cons c rest ih =>
    intro b a h
    rw [rsplitGt] at h
    cases hr : rsplitGt rest with
    | some p =>
      rw [hr] at h
      obtain ⟨b2, a2⟩ := p
      simp only [Option.some.injEq, Prod.mk.injEq] at h
      exact h.2 ▸ ih b2 a2 hr
    | none =>
      rw [hr] at h
      by_cases hc : c = '>'
      · rw [if_pos hc] at h
        simp only [Option.some.injEq, Prod.mk.injEq] at h
        exact h.2 ▸ rsplitGt_none_no_gt rest hr
      · rw [if_neg hc] at h
        simp at h

/-- Claim C2, counterexample.  With a registered handler for foo that
raises, the input "foo bar > out.txt" installs the redirection (the tee
is self.stdout and the saved stream sits in self.__output_redirected),
then the handler error escapes onecmd, so postcmd — the restore step —
never runs in that cycle: after the cycle self.stdout is still the tee,
not the pre-redirection stream, refuting "the restore step always runs
... on a handler error". -/
theorem c2_counterexample :
    cycle envBoom s0 "foo bar > out.txt".toList =
      .fatal { s0 with
          stdout := .tee (.base 0) "out.txt".toList 'w',
          outputRedirected := some (.base 0),
          lastcmd := "foo bar".toList,
          stderr := ["Exception occured: boom\n".toList] }
        (.exception "boom".toList)
    ∧ OutStream.tee (.base 0) "out.txt".toList 'w' ≠ .base 0 :=
  ⟨rfl, by decide⟩

/-- Claim C3, counterexample.  With last command
"run app.package.info -a com.example.app", the token !^ is replaced by
argv[1], which is app.package.info — not run as the claim states. -/
theorem c3_counterexample :
    do_last_command_substitutions
        "run app.package.info -a com.example.app".toList "!^".toList =
      .ok ("app.package.info".toList, [])
    ∧ "app.package.info".toList ≠ "run".toList :=
  ⟨rfl, by decide⟩

/-- Claim C3 (amended): with that last command, !$ expands to
com.example.app, !^ expands to app.package.info (the second token, i.e.
the first argument), !* expands to "app.package.info -a com.example.app",
and !! expands to the entire original line. -/
theorem c3_amended :
    do_last_command_substitutions
        "run app.package.info -a com.example.app".toList "!$".toList =
      .ok ("com.example.app".toList, [])
    ∧ do_last_command_substitutions
        "run app.package.info -a com.example.app".toList "!^".toList =
      .ok ("app.package.info".toList, [])
    ∧ do_last_command_substitutions
        "run app.package.info -a com.example.app".toList "!*".toList =
      .ok ("app.package.info -a com.example.app".toList, [])
    ∧ do_last_command_substitutions
        "run app.package.info -a com.example.app".toList "!!".toList =
      .ok ("run app.package.info -a com.example.app".toList, []) :=
  ⟨rfl, rfl, rfl, rfl⟩

/-- Claim C4.  Evaluating the loop iteration at a line with an unmatched
double quote: shlex raises ValueError("No closing quotation") inside
precmd; the except ValueError handler reads e.message, which does not
exist on a Python 3 ValueError, so AttributeError escapes to the outer
except Exception handler — the user-facing quotation message is never
written (stderr holds only the handleException line) and the loop
terminates instead of continuing. -/
theorem c4_quote_error_eval :
    cycle sampleEnv s0 "foo \"bar".toList =
      .fatal { s0 with stderr :=
          ["Exception occured: ".toList ++ pyNoMessageAttr ++ "\n".toList] }
        (.attributeError pyNoMessageAttr) :=
  rfl

/-- Claim C5, counterexample.  With the table [A ↦ $B, B ↦ x] (in table
order) and the line $A, the token $B occurs only inside the substituted
value of A, yet the later pass for B expands it: the result is x, not the
$B the claim requires. -/
theorem c5_counterexample :
    varPass [("A".toList, "$B".toList), ("B".toList, "x".toList)] "$A".toList
      = "x".toList
    ∧ "x".toList ≠ "$B".toList :=
  ⟨rfl, by decide⟩

/-- Claim C5 (amended): the substitution is one replace pass per variable,
in table order; a pass never rescans the text it has itself substituted
for the SAME variable — in particular a value that reintroduces its own
$name token is left intact and causes no further expansion (no infinite
loop) — though variables later in table order do scan it. -/
theorem c5_amended (name line : List Char) :
    varPass [(name, '$' :: name)] line = line := by
  unfold varPass
  simp only [List.foldl_cons, List.foldl_nil]
  exact replaceAll_self ('$' :: name) line

/-- Claim C7.  When there is no previous command (self.lastcmd empty) and
the line reaching the history-bang step mentions one of the four bang
tokens, the substitution engine writes "no previous command" to the error
stream and returns the empty string; no exception escapes. -/
theorem c7_no_previous (s : ShellState) (line : List Char)
    (hl : s.lastcmd = [])
    (hb : hasBang (varPass s.varTable line) = true) :
    do_substitutions s line =
      .ok ([], { s with stderr := s.stderr ++ [msgNoPrev] }) := by
  unfold do_substitutions
  by_cases h0 : line = []
  · subst h0
    rw [varPass_nil_line] at hb
    simp [hasBang, containsSub] at hb
  · rw [if_neg h0]
    simp only [hb, if_true]
    rw [hl]
    unfold do_last_command_substitutions
    simp

/-- Claim C7, witness at the line "!!" with empty tables. -/
theorem c7_no_previous_witness :
    do_substitutions s0 "!!".toList =
      .ok ([], { s0 with stderr := [msgNoPrev] }) :=
  c7_no_previous s0 "!!".toList rfl rfl

/-- Claim C9.  When the last command is non-empty yet shlex-splits into
fewer than two tokens, the history-bang expansion raises IndexError for
every line that mentions a bang token (the expansion is only invoked for
such lines): argv[-1] and argv[1] are computed unconditionally, and with
zero tokens argv[-1] already fails while with one token argv[1] fails. -/
theorem c9_bang_index_error (lastcmd line : List Char)
    (argv : List (List Char))
    (h0 : lastcmd ≠ [])
    (h1 : shlexSplit lastcmd = .ok argv)
    (h2 : argv.length < 2)
    (_hb : hasBang line = true) :
    do_last_command_substitutions lastcmd line = .error .indexError := by
  unfold do_last_command_substitutions
  rw [if_pos h0, h1]
  cases argv with
  | nil => rfl
  | cons a t =>
    cases t with
    | nil => rfl
    | cons b t2 =>
      exfalso
      simp only [List.length_cons] at h2
      omega

/-- Claim C9, witness: last command "x" (one token), line "!!". -/
theorem c9_bang_index_error_witness :
    do_last_command_substitutions "x".toList "!!".toList = .error .indexError :=
  c9_bang_index_error "x".toList "!!".toList ["x".toList]
    (by decide) rfl (by decide) rfl

/-- When precmd hands the empty line on with no redirection recorded, the
rest of the cycle is the emptyline no-op and postcmd leaves the state
alone: the loop goes on. -/
theorem cycle_of_precmd_empty (env : Env) (s s1 : ShellState) (line : List Char)
    (hpre : precmd env s line = .ok ([], s1))
    (h2 : s1.outputRedirected = none) :
    cycle env s line = .cont s1 none := by
  unfold cycle cycleBody postcmd
  rw [hpre]
  have ho : onecmd env s1 [] = .ok (none, s1) := rfl
  simp only [ho, h2]

/-- When precmd hands the empty line on but left a stream saved in
self.__output_redirected, the emptyline no-op runs and postcmd restores
that stream: the loop goes on. -/
theorem cycle_of_precmd_empty_redirected (env : Env) (s s1 : ShellState)
    (o : OutStream) (line : List Char)
    (hpre : precmd env s line = .ok ([], s1))
    (h2 : s1.outputRedirected = some o) :
    cycle env s line =
      .cont { s1 with stdout := o, outputRedirected := none } none := by
  unfold cycle cycleBody postcmd
  rw [hpre]
  have ho : onecmd env s1 [] = .ok (none, s1) := rfl
  simp only [ho, h2]

/-- Claim C6.  For the line "foo bar >" (a redirection token with a blank
destination), in any session state and environment: precmd reports
"No redirection target specified." to the error stream and returns the
empty line, and the whole cycle completes with only that error write —
in particular no handler (for foo or anything else) is ever invoked,
whatever env.handlers holds. -/
theorem c6_no_target (env : Env) (s : ShellState)
    (h : s.outputRedirected = none) :
    precmd env s "foo bar >".toList =
      .ok ([], { s with stderr := s.stderr ++ [msgNoTarget] })
    ∧ cycle env s "foo bar >".toList =
      .cont { s with stderr := s.stderr ++ [msgNoTarget] } none := by
  have hsub : do_substitutions s "foo bar >".toList =
      .ok ("foo bar >".toList, s) := by
    unfold do_substitutions
    rw [if_neg (by decide : ¬ ("foo bar >".toList = ([] : List Char)))]
    simp only [varPass_no_dollar s.varTable "foo bar >".toList (by decide)]
    rfl
  have hpre : precmd env s "foo bar >".toList =
      .ok ([], { s with stderr := s.stderr ++ [msgNoTarget] }) := by
    unfold precmd
    rw [hsub]
    rfl
  exact ⟨hpre, cycle_of_precmd_empty env s _ _ hpre h⟩

/-- Claim C6, witness at the sample state and environment. -/
theorem c6_no_target_witness :
    precmd sampleEnv s0 "foo bar >".toList =
      .ok ([], { s0 with stderr := [msgNoTarget] })
    ∧ cycle sampleEnv s0 "foo bar >".toList =
      .cont { s0 with stderr := [msgNoTarget] } none :=
  c6_no_target sampleEnv s0 rfl

/-- Claim C10.  When opening the redirection destination raises IOError
(env.openErr yields a strerror for out.txt in overwrite mode), the error
is reported on the error stream, precmd returns the empty line — so no
handler is dispatched, whatever env.handlers holds — and after postcmd
(the restore step of the same cycle) self.stdout is the very stream
object from before the redirection attempt; the saved-stream slot is
cleared again.  The whole cycle leaves the state unchanged except for the
reported message. -/
theorem c10_ioerror_restore (env : Env) (s : ShellState) (err : List Char)
    (hrd : s.outputRedirected = none)
    (hopen : env.openErr "out.txt".toList 'w' = some err) :
    cycle env s "foo bar > out.txt".toList =
      .cont { s with stderr := s.stderr ++ [redirectErrMsg err] } none := by
  have hsub : do_substitutions s "foo bar > out.txt".toList =
      .ok ("foo bar > out.txt".toList, s) := by
    unfold do_substitutions
    rw [if_neg (by decide : ¬ ("foo bar > out.txt".toList = ([] : List Char)))]
    simp only [varPass_no_dollar s.varTable "foo bar > out.txt".toList (by decide)]
    rfl
  have htee : build_tee env s.stdout (' ' :: "out.txt".toList) = .error (.ioError err) := by
    have h1 : build_tee env s.stdout (' ' :: "out.txt".toList) =
        (match env.openErr "out.txt".toList 'w' with
         | some strerror => .error (.ioError strerror)
         | none => .ok (.tee s.stdout "out.txt".toList 'w')) := rfl
    rw [h1, hopen]
  have hro : redirect_output env s "foo bar > out.txt".toList =
      .ok ([], { s with outputRedirected := some s.stdout, stderr := s.stderr ++ [redirectErrMsg err] }) := by
    have h1 : redirect_output env s "foo bar > out.txt".toList =
        (match build_tee env s.stdout (' ' :: "out.txt".toList) with
         | .ok t =>
           .ok ("foo bar ".toList, { s with outputRedirected := some s.stdout, stdout := t })
         | .error (.ioError strerror) =>
           .ok ([], { s with outputRedirected := some s.stdout, stderr := s.stderr ++ [redirectErrMsg strerror] })
         | .error e => .error (e, { s with outputRedirected := some s.stdout })) := rfl
    rw [h1, htee]
  have hpre : precmd env s "foo bar > out.txt".toList =
      .ok ([], { s with outputRedirected := some s.stdout, stderr := s.stderr ++ [redirectErrMsg err] }) := by
    unfold precmd
    rw [hsub]
    show redirect_output env s "foo bar > out.txt".toList = _
    exact hro
  have hcyc := cycle_of_precmd_empty_redirected env s _ s.stdout
    "foo bar > out.txt".toList hpre rfl
  rw [hcyc, hrd]

/-- Claim C10, witness: a state with something already on stderr and an
environment whose only handler would abort the run if it were dispatched. -/
theorem c10_ioerror_restore_witness :
    cycle
      { hasShell := false,
        handlers := fun c =>
          if c = "foo".toList then
            some (fun _ _ => .error (.exception "must not run".toList))
          else none,
        openErr := fun _ _ => some "Permission denied".toList }
      s0 "foo bar > out.txt".toList =
      .cont { s0 with stderr := [redirectErrMsg "Permission denied".toList] } none :=
  c10_ioerror_restore
    { hasShell := false,
      handlers := fun c =>
        if c = "foo".toList then
          some (fun _ _ => .error (.exception "must not run".toList))
        else none,
      openErr := fun _ _ => some "Permission denied".toList }
    s0 "Permission denied".toList rfl rfl

/-- The substitution step only appends to stderr: it never touches the
stream fields. -/
theorem do_substitutions_frame (s : ShellState) (line l1 : List Char)
    (s1 : ShellState) (h : do_substitutions s line = .ok (l1, s1)) :
    s1.stdout = s.stdout ∧ s1.outputRedirected = s.outputRedirected := by
  unfold do_substitutions at h
  split at h
  · simp only [Except.ok.injEq, Prod.mk.injEq] at h
    obtain ⟨h1, h2⟩ := h
    subst h2
    exact ⟨rfl, rfl⟩
  · split at h
    · split at h
      · exact absurd h (by simp)
      · simp only [Except.ok.injEq, Prod.mk.injEq] at h
        obtain ⟨h1, h2⟩ := h
        subst h2
        exact ⟨rfl, rfl⟩
    · simp only [Except.ok.injEq, Prod.mk.injEq] at h
      obtain ⟨h1, h2⟩ := h
      subst h2
      exact ⟨rfl, rfl⟩

/-- A handler invocation only replaces the variable table. -/
theorem runHandler_frame (h : Handler) (s : ShellState) (arg : List Char)
    (stop : Option Bool) (s2 : ShellState)
    (he : runHandler h s arg = .ok (stop, s2)) :
    s2.stdout = s.stdout ∧ s2.outputRedirected = s.outputRedirected := by
  unfold runHandler at he
  split at he
  · exact absurd he (by simp)
  · simp only [Except.ok.injEq, Prod.mk.injEq] at he
    obtain ⟨h1, h2⟩ := he
    subst h2
    exact ⟨rfl, rfl⟩

/-- Alias dispatch only replaces the variable table (or writes the unknown
syntax notice, which the model does not track as a stream rebind). -/
theorem defaultCmd_frame (env : Env) (s : ShellState) (line : List Char)
    (stop : Option Bool) (s2 : ShellState)
    (h : defaultCmd env s line = .ok (stop, s2)) :
    s2.stdout = s.stdout ∧ s2.outputRedirected = s.outputRedirected := by
  unfold defaultCmd at h
  split at h
  · exact absurd h (by simp)
  · exact absurd h (by simp)
  · split at h
    · split at h
      · split at h
        · exact absurd h (by simp)
        · simp only [Except.ok.injEq, Prod.mk.injEq] at h
          obtain ⟨h1, h2⟩ := h
          subst h2
          exact ⟨rfl, rfl⟩
      · exact absurd h (by simp)
    · simp only [Except.ok.injEq, Prod.mk.injEq] at h
      obtain ⟨h1, h2⟩ := h
      subst h2
      exact ⟨rfl, rfl⟩

/-- One dispatched command never rebinds self.stdout nor the saved
redirection slot: those belong to precmd and postcmd. -/
theorem onecmd_frame (env : Env) (s : ShellState) (line : List Char)
    (stop : Option Bool) (s2 : ShellState)
    (h : onecmd env s line = .ok (stop, s2)) :
    s2.stdout = s.stdout ∧ s2.outputRedirected = s.outputRedirected := by
  unfold onecmd at h
  split at h
  · simp only [Except.ok.injEq, Prod.mk.injEq] at h
    obtain ⟨h1, h2⟩ := h
    subst h2
    exact ⟨rfl, rfl⟩
  · exact defaultCmd_frame env s _ stop s2 h
  · rename_i name arg l heq
    split at h
    · exact defaultCmd_frame env
        { s with lastcmd := if l = "EOF".toList then [] else l } l stop s2 h
    · split at h
      · exact runHandler_frame _
          { s with lastcmd := if l = "EOF".toList then [] else l } arg stop s2 h
      · exact defaultCmd_frame env
          { s with lastcmd := if l = "EOF".toList then [] else l } l stop s2 h

/-- What redirection setup can do to the streams: either it left them
alone (no redirection token path is excluded here, blank target, or
nothing), or it saved the incoming stdout into the redirection slot. -/
theorem redirect_output_frame (env : Env) (s : ShellState) (line l1 : List Char)
    (s1 : ShellState) (h : redirect_output env s line = .ok (l1, s1)) :
    (s1.outputRedirected = s.outputRedirected ∧ s1.stdout = s.stdout) ∨
      s1.outputRedirected = some s.stdout := by
  unfold redirect_output at h
  split at h
  · exact absurd h (by simp)
  · split at h
    · split at h
      · simp only [Except.ok.injEq, Prod.mk.injEq] at h
        obtain ⟨h1, h2⟩ := h
        subst h2
        right
        rfl
      · simp only [Except.ok.injEq, Prod.mk.injEq] at h
        obtain ⟨h1, h2⟩ := h
        subst h2
        right
        rfl
      · exact absurd h (by simp)
    · simp only [Except.ok.injEq, Prod.mk.injEq] at h
      obtain ⟨h1, h2⟩ := h
      subst h2
      exact Or.inl ⟨rfl, rfl⟩

/-- After a successful precmd starting with no active redirection, either
no redirection was installed (streams untouched), or the slot holds
exactly the pre-redirection stdout. -/
theorem precmd_redirect (env : Env) (s : ShellState) (line l1 : List Char)
    (s1 : ShellState)
    (h0 : s.outputRedirected = none)
    (h : precmd env s line = .ok (l1, s1)) :
    (s1.outputRedirected = none ∧ s1.stdout = s.stdout) ∨
      s1.outputRedirected = some s.stdout := by
  unfold precmd at h
  cases hds : do_substitutions s line with
  | error es => simp [hds] at h
  | ok p =>
    obtain ⟨la, sa⟩ := p
    simp only [hds] at h
    have hfr := do_substitutions_frame s line la sa hds
    split at h
    · exact absurd h (by simp)
    · split at h
      · rcases redirect_output_frame env sa la l1 s1 h with ⟨hr1, hr2⟩ | hr
        · exact Or.inl ⟨hr1.trans (hfr.2.trans h0), hr2.trans hfr.1⟩
        · exact Or.inr (hr.trans (congrArg some hfr.1))
      · simp only [Except.ok.injEq, Prod.mk.injEq] at h
        obtain ⟨h1, h2⟩ := h
        subst h2
        exact Or.inl ⟨hfr.2.trans h0, hfr.1⟩

/-- Claim C2 (amended).  When a cycle completes without an exception —
success of the handler, or a recoverable precmd failure — postcmd always
runs and the session output stream ends up being the exact stream object
from before the cycle, with the redirection slot cleared; the
counterexample above shows the restore step does NOT run when the handler
or the downstream parse raises, which the original claim asserted it did. -/
theorem c2_amended (env : Env) (s : ShellState) (line : List Char)
    (s1 : ShellState) (stop : Option Bool)
    (h0 : s.outputRedirected = none)
    (hc : cycle env s line = .cont s1 stop) :
    s1.stdout = s.stdout ∧ s1.outputRedirected = none := by
  unfold cycle at hc
  cases hb : cycleBody env s line with
  | error es =>
    rw [hb] at hc
    obtain ⟨e, sx⟩ := es
    cases e <;> simp at hc
  | ok p =>
    obtain ⟨st, s2⟩ := p
    rw [hb] at hc
    simp only [CycleResult.cont.injEq] at hc
    obtain ⟨hs2, hstop⟩ := hc
    subst hs2
    unfold cycleBody at hb
    cases hp : precmd env s line with
    | error es => simp [hp] at hb
    | ok q =>
      obtain ⟨l1, sa⟩ := q
      simp only [hp] at hb
      cases ho : onecmd env sa l1 with
      | error es => simp [ho] at hb
      | ok r =>
        obtain ⟨st2, sb⟩ := r
        simp only [ho, Except.ok.injEq] at hb
        have hofr := onecmd_frame env sa l1 st2 sb ho
        have hpfr := precmd_redirect env s line l1 sa h0 hp
        unfold postcmd at hb
        rcases hpfr with ⟨hnone, hstd⟩ | hsome
        · have hsb : sb.outputRedirected = none := hofr.2.trans hnone
          rw [hsb] at hb
          simp only [Prod.mk.injEq] at hb
          obtain ⟨hb1, hb2⟩ := hb
          subst hb2
          exact ⟨hofr.1.trans hstd, hsb⟩
        · have hsb : sb.outputRedirected = some s.stdout := hofr.2.trans hsome
          rw [hsb] at hb
          simp only [Prod.mk.injEq] at hb
          obtain ⟨hb1, hb2⟩ := hb
          subst hb2
          exact ⟨rfl, rfl⟩

/-- Claim C2 (amended), witness: the exception-free run of
"foo bar > out.txt" with no handler registered ends with the original
stdout restored and the redirection slot empty. -/
theorem c2_amended_witness :
    (⟨OutStream.base 0, [], none, [], [], "foo bar".toList⟩ : ShellState).stdout
        = s0.stdout
    ∧ (⟨OutStream.base 0, [], none, [], [], "foo bar".toList⟩ : ShellState).outputRedirected
        = none :=
  c2_amended sampleEnv s0 "foo bar > out.txt".toList
    ⟨OutStream.base 0, [], none, [], [], "foo bar".toList⟩ none rfl rfl

/-- Effect of one push on the completer-related state: the previously
installed completer is appended to the saved stack, the new completer is
installed, and the history file is pushed. -/
theorem push_completer_fields (t : CompleterCtx) (c : Nat) (hf : Option (List Char)) :
    (push_completer true t c hf).completerStack = t.completerStack ++ [t.rlCompleter]
    ∧ (push_completer true t c hf).rlCompleter = c
    ∧ (push_completer true t c hf).historyStack = t.historyStack ++ [hf] := by
  refine ⟨?_, ?_, ?_⟩ <;>
  · simp only [push_completer]
    repeat' split
    all_goals first | rfl | (exfalso; simp_all)

/-- Writing one history file never removes another from the disk. -/
theorem fsWrite_mono (fs : List (List Char × List (List Char)))
    (q p : List Char) (co : List (List Char))
    (hin : (fsRead fs p).isSome = true) :
    (fsRead (fsWrite fs q co) p).isSome = true := by
  unfold fsRead fsWrite at *
  by_cases hpq : (p == q) = true
  · simp [List.lookup, hpq]
  · simp [List.lookup, hpq]
    simpa using hin

/-- A push never removes a history file from the disk. -/
theorem push_completer_fs_mono (t : CompleterCtx) (c : Nat) (hf : Option (List Char))
    (p : List Char) (hp : (fsRead t.fs p).isSome = true) :
    (fsRead (push_completer true t c hf).fs p).isSome = true := by
  simp only [push_completer]
  repeat' split
  all_goals first
    | exact hp
    | exact fsWrite_mono t.fs _ p t.rlHistory hp

/-- A push flushes the in-memory history to the file of the current top
context, so that file exists on disk afterwards. -/
theorem push_completer_writes_top (t : CompleterCtx) (c : Nat) (hf : Option (List Char))
    (f : List Char) (hl : t.historyStack.getLast? = some (some f)) (hne : f ≠ []) :
    (fsRead (push_completer true t c hf).fs f).isSome = true := by
  simp only [push_completer]
  rw [hl]
  simp only [if_pos hne]
  repeat' split
  all_goals first
    | (exfalso; simp_all; done)
    | (simp [fsRead, fsWrite, List.lookup])


/-- Effect of one pop on a state whose stacks are non-empty and whose
next-down history file (when it is a real path) exists on disk: the pop
succeeds, restores the saved completer and the remaining stacks, and
removes no file from the disk. -/
theorem pop_completer_last (u : CompleterCtx) (hs : List (Option (List Char)))
    (hf : Option (List Char)) (cs : List Nat) (c0 : Nat)
    (hH : u.historyStack = hs ++ [hf])
    (hC : u.completerStack = cs ++ [c0])
    (hTop : ∀ f, hs.getLast? = some (some f) → f ≠ [] → (fsRead u.fs f).isSome = true) :
    ∃ v, pop_completer true u = .ok v ∧ v.rlCompleter = c0 ∧
      v.completerStack = cs ∧ v.historyStack = hs ∧
      (∀ p, (fsRead u.fs p).isSome = true → (fsRead v.fs p).isSome = true) := by
  cases hf with
  | none =>
    cases hls : hs.getLast? with
    | none =>
      simp only [pop_completer, hH, hC, List.getLast?_concat, List.dropLast_concat, hls]
      exact ⟨_, rfl, rfl, rfl, rfl, fun p hp => hp⟩
    | some topf =>
      cases topf with
      | none =>
        simp only [pop_completer, hH, hC, List.getLast?_concat, List.dropLast_concat, hls]
        exact ⟨_, rfl, rfl, rfl, rfl, fun p hp => hp⟩
      | some f2 =>
        by_cases hne : f2 ≠ []
        · have hread := hTop f2 hls hne
          obtain ⟨content, hcontent⟩ := Option.isSome_iff_exists.mp hread
          simp only [pop_completer, hH, hC, List.getLast?_concat, List.dropLast_concat,
            hls, if_pos hne, hcontent]
          exact ⟨_, rfl, rfl, rfl, rfl, fun p hp => hp⟩
        · simp only [pop_completer, hH, hC, List.getLast?_concat, List.dropLast_concat,
            hls, if_neg hne]
          exact ⟨_, rfl, rfl, rfl, rfl, fun p hp => hp⟩
  | some f =>
    cases hls : hs.getLast? with
    | none =>
      simp only [pop_completer, hH, hC, List.getLast?_concat, List.dropLast_concat, hls]
      exact ⟨_, rfl, rfl, rfl, rfl, fun p hp => fsWrite_mono u.fs f p u.rlHistory hp⟩
    | some topf =>
      cases topf with
      | none =>
        simp only [pop_completer, hH, hC, List.getLast?_concat, List.dropLast_concat, hls]
        exact ⟨_, rfl, rfl, rfl, rfl, fun p hp => fsWrite_mono u.fs f p u.rlHistory hp⟩
      | some f2 =>
        by_cases hne : f2 ≠ []
        · have hread := fsWrite_mono u.fs f f2 u.rlHistory (hTop f2 hls hne)
          obtain ⟨content, hcontent⟩ := Option.isSome_iff_exists.mp hread
          simp only [pop_completer, hH, hC, List.getLast?_concat, List.dropLast_concat,
            hls, if_pos hne, hcontent]
          exact ⟨_, rfl, rfl, rfl, rfl, fun p hp => fsWrite_mono u.fs f p u.rlHistory hp⟩
        · simp only [pop_completer, hH, hC, List.getLast?_concat, List.dropLast_concat,
            hls, if_neg hne]
          exact ⟨_, rfl, rfl, rfl, rfl, fun p hp => fsWrite_mono u.fs f p u.rlHistory hp⟩

/-- A sequence of n+1 pops is n pops followed by one more. -/
theorem popN_succ_back (n : Nat) :
    ∀ st : CompleterCtx, popN true (n + 1) st =
      (match popN true n st with
       | .error e => .error e
       | .ok u => pop_completer true u) := by
  induction n with
  | zero =>
    intro st
    have hR : (match popN true 0 st with
               | .error e => Except.error e
               | .ok u => pop_completer true u) = pop_completer true st := rfl
    rw [hR]
    show (match pop_completer true st with
          | .error e => Except.error e
          | .ok u => popN true 0 u) = pop_completer true st
    cases pop_completer true st <;> rfl
  | succ n ih =>
    intro st
    have hL : popN true (n + 1 + 1) st =
        (match pop_completer true st with
         | .error e => .error e
         | .ok u => popN true (n + 1) u) := rfl
    have hR : popN true (n + 1) st =
        (match pop_completer true st with
         | .error e => .error e
         | .ok u => popN true n u) := rfl
    rw [hL, hR]
    cases hp : pop_completer true st with
    | error e => rfl
    | ok u =>
      simp only []
      rw [ih u]

/-- Stack discipline: after pushing a list of contexts, popping the same
number of times succeeds and restores the installed completer, the
completer stack and the history stack exactly; files only accumulate. -/
theorem popN_pushList (as : List (Nat × Option (List Char))) :
    ∀ t : CompleterCtx, ∃ u,
      popN true as.length (pushList true t as) = .ok u ∧
      u.rlCompleter = t.rlCompleter ∧
      u.completerStack = t.completerStack ∧
      u.historyStack = t.historyStack ∧
      (∀ p, (fsRead t.fs p).isSome = true → (fsRead u.fs p).isSome = true) := by
  induction as with
  | nil => intro t; exact ⟨t, rfl, rfl, rfl, rfl, fun p hp => hp⟩
  | cons a as ih =>
    intro t
    obtain ⟨u, hpop, hc, hcs, hhs, hfs⟩ := ih (push_completer true t a.1 a.2)
    obtain ⟨hPcs, hPc, hPhs⟩ := push_completer_fields t a.1 a.2
    have hTop : ∀ f, t.historyStack.getLast? = some (some f) → f ≠ [] →
        (fsRead u.fs f).isSome = true := fun f hl hne =>
      hfs f (push_completer_writes_top t a.1 a.2 f hl hne)
    obtain ⟨v, hv, hvc, hvcs, hvhs, hvfs⟩ :=
      pop_completer_last u t.historyStack a.2 t.completerStack t.rlCompleter
        (hhs.trans hPhs) (hcs.trans hPcs) hTop
    refine ⟨v, ?_, hvc.trans rfl, hvcs, hvhs, ?_⟩
    · show popN true (as.length + 1)
        (pushList true (push_completer true t a.1 a.2) as) = .ok v
      rw [popN_succ_back as.length _, hpop]
      exact hv
    · intro p hp
      exact hvfs p (hfs p (push_completer_fs_mono t a.1 a.2 p hp))

/-- Without readline, push_completer is a no-op. -/
theorem pushList_false (as : List (Nat × Option (List Char))) :
    ∀ st : CompleterCtx, pushList false st as = st := by
  induction as with
  | nil => intro st; rfl
  | cons a as ih => intro st; exact ih st

/-- Without readline, pop_completer is a no-op that always succeeds. -/
theorem popN_false (n : Nat) (st : CompleterCtx) : popN false n st = .ok st := by
  induction n with
  | zero => rfl
  | succ n ih => exact ih

/-- Claim C8.  For every N and every sequence of N push_completer calls
(with arbitrary completers and history files) followed by N pop_completer
calls, the completer installed on the host line editor after all the pops
is exactly the completer that was installed before the first push — with
and without a readline module. -/
theorem c8_push_pop_completer (hasRL : Bool)
    (args : List (Nat × Option (List Char))) (st : CompleterCtx) :
    (popN hasRL args.length (pushList hasRL st args)).map
        (fun u => u.rlCompleter) = .ok st.rlCompleter := by
  cases hasRL with
  | true =>
    obtain ⟨u, hpop, hc, h1, h2, h3⟩ := popN_pushList args st
    rw [hpop]
    simp [Except.map, hc]
  | false =>
    rw [pushList_false args st, popN_false args.length st]
    rfl
